import Mathlib

/-
Shallow embedding of the validator performance analysis core of the strac
repository (Go), and proofs about it.

Conventions of the embedding:
- Go uint64 values are modelled as Nat together with explicit reduction
  modulo 2^64 exactly where the Go arithmetic can wrap (goAdd64, goSub64,
  goMul64); Go int values that are only ever incremented are modelled as Nat.
- Go integer division panics when the divisor is zero; divisions whose
  divisor can be zero are modelled through goDiv64, which returns the panic
  explicitly.
- Fallible Go functions returning (T, error) are modelled as Except with an
  explicit error type; runtime panics (crashes) are a separate type GoPanic,
  kept distinct from returned errors.
- 32-byte roots and BLS public keys are compared with bytes.Equal in the
  source; roots are modelled as Nat (equality is equality), public keys as
  byte lists.
-/

deriving instance DecidableEq for Except

namespace Strac

/-- The modulus of Go uint64 arithmetic, 2^64. -/
def U64 : Nat := 18446744073709551616

/-- Go uint64 addition (wraps modulo 2^64). -/
def goAdd64 (a b : Nat) : Nat := (a + b) % U64

/-- Go uint64 subtraction (wraps modulo 2^64). -/
def goSub64 (a b : Nat) : Nat := (a % U64 + (U64 - b % U64)) % U64

/-- Go uint64 multiplication (wraps modulo 2^64). -/
def goMul64 (a b : Nat) : Nat := (a * b) % U64

/-- Runtime panics of the Go source that the embedding makes explicit:
integer division by zero and nil-pointer dereference. A panic crashes the
process; it is not a returned error. -/
inductive GoPanic where
  | divideByZero
  | nilPointerDereference
deriving DecidableEq, Repr

/-- Go uint64 division: panics when the divisor is zero, otherwise truncates. -/
def goDiv64 (a b : Nat) : Except GoPanic Nat :=
  if b = 0 then .error .divideByZero else .ok (a / b)

/-- Reinterpretation of a uint64 value as Go int64 (used for the
InclusionDistance field, declared int in the source). -/
def goUint64ToInt (n : Nat) : Int :=
  if n % U64 < 2 ^ 63 then (n % U64 : Int) else (n % U64 : Int) - (U64 : Int)

/-- Reduction of a Go int64 value to uint64 (conversion phase0.Epoch(val)). -/
def goIntToUint64 (v : Int) : Nat := (v % (U64 : Int)).toNat

/-- Returned errors of the embedded functions, named after the error
messages or wrap messages in the source. -/
inductive GoErr where
  | failedToParseEpoch
  | invalidRange
  | invalidRangeStart
  | invalidRangeEnd
  | failedToParseValidator
  | badPubKeyCopy
  | unknownValidator
  | failedToObtainBlock
deriving DecidableEq, Repr

/-- ChainTime (blockchain/chaintime, part_002 lines 18-24): genesis time and
spec constants. Times are in seconds; slotDuration is SECONDS_PER_SLOT. -/
structure ChainTime where
  genesisTime : Nat
  slotDuration : Nat
  slotsPerEpoch : Nat
  epochsPerSyncCommitteePeriod : Nat
deriving DecidableEq, Repr

/-- Embeds the constant handling of NewChainTime (part_002 lines 105-137):
SECONDS_PER_SLOT and SLOTS_PER_EPOCH are required (construction fails before
this point when they are absent), while EPOCHS_PER_SYNC_COMMITTEE_PERIOD is
optional and the field keeps the Go zero value when it was never supplied. -/
def NewChainTime (genesisTime slotDuration slotsPerEpoch : Nat)
    (epochsPerSyncCommitteePeriod? : Option Nat) : ChainTime :=
  { genesisTime := genesisTime
    slotDuration := slotDuration
    slotsPerEpoch := slotsPerEpoch
    epochsPerSyncCommitteePeriod := epochsPerSyncCommitteePeriod?.getD 0 }

/-- SlotToEpoch (part_002 lines 185-188): uint64(slot) / slotsPerEpoch.
The Go division panics when slotsPerEpoch is zero, hence the goDiv64 model. -/
def ChainTime.SlotToEpoch (s : ChainTime) (slot : Nat) : Except GoPanic Nat :=
  goDiv64 slot s.slotsPerEpoch

/-- FirstSlotOfEpoch (part_002 lines 195-198): uint64(epoch) * slotsPerEpoch. -/
def ChainTime.FirstSlotOfEpoch (s : ChainTime) (epoch : Nat) : Nat :=
  goMul64 epoch s.slotsPerEpoch

/-- LastSlotOfEpoch (part_002 lines 200-203):
uint64(epoch) * slotsPerEpoch + slotsPerEpoch - 1, all in uint64. -/
def ChainTime.LastSlotOfEpoch (s : ChainTime) (epoch : Nat) : Nat :=
  goSub64 (goAdd64 (goMul64 epoch s.slotsPerEpoch) s.slotsPerEpoch) 1

/-- SlotToSyncCommitteePeriod (part_002 lines 190-193):
uint64(SlotToEpoch(slot)) / epochsPerSyncCommitteePeriod. Both divisions are
Go uint64 divisions and panic on a zero divisor. -/
def ChainTime.SlotToSyncCommitteePeriod (s : ChainTime) (slot : Nat) :
    Except GoPanic Nat := do
  let epoch ← s.SlotToEpoch slot
  goDiv64 epoch s.epochsPerSyncCommitteePeriod

/-- CurrentSyncCommitteePeriod (part_002 lines 180-183), with the current
epoch (a wall-clock reading in the source) passed explicitly:
uint64(CurrentEpoch()) / epochsPerSyncCommitteePeriod. -/
def ChainTime.CurrentSyncCommitteePeriodAt (s : ChainTime) (currentEpoch : Nat) :
    Except GoPanic Nat :=
  goDiv64 currentEpoch s.epochsPerSyncCommitteePeriod

/-- Decimal value of a digit string (most significant first). -/
def digitsToNat (cs : List Char) : Nat :=
  cs.foldl (fun a c => a * 10 + (c.toNat - ('0').toNat)) 0

/-- Model of Go strconv.ParseInt(s, 10, 64): an optional sign followed by a
nonempty run of decimal digits, with the value required to fit in a signed
64-bit integer; anything else (including overflow) yields an error, here
none. -/
def goParseInt64 (s : String) : Option Int :=
  match s.data with
  | [] => none
  | c :: rest =>
    let neg : Bool := c = '-'
    let digits : List Char := if c = '-' ∨ c = '+' then rest else c :: rest
    if digits = [] ∨ ¬ digits.all Char.isDigit then none
    else
      let n := digitsToNat digits
      if neg then
        if n ≤ 2 ^ 63 then some (-(n : Int)) else none
      else
        if n ≤ 2 ^ 63 - 1 then some (n : Int) else none

/-- Model of Go strconv.ParseUint(s, 10, 64): a nonempty run of decimal
digits with no sign, value below 2^64. -/
def goParseUint64 (s : String) : Option Nat :=
  if s.data ≠ [] ∧ s.data.all Char.isDigit then
    let n := digitsToNat s.data
    if n < U64 then some n else none
  else none

/-- The descriptor strings handled by the switch of ParseEpoch before literal
parsing (part_002 lines 226-233). -/
def isEpochKeyword (s : String) : Prop :=
  s = "" ∨ s = "current" ∨ s = "head" ∨ s = "-0" ∨ s = "last"

instance (s : String) : Decidable (isEpochKeyword s) := by
  unfold isEpochKeyword; infer_instance

/-- Embeds ParseEpoch (part_002 lines 223-247), with the current epoch (a
wall-clock reading in the source) passed explicitly. Negative literals are
applied to the current epoch with the uint64 conversion the source performs:
phase0.Epoch(-val) for the bound check and currentEpoch + phase0.Epoch(val)
for the result. -/
def ParseEpoch (currentEpoch : Nat) (epochStr : String) : Except GoErr Nat :=
  if epochStr = "" ∨ epochStr = "current" ∨ epochStr = "head" ∨ epochStr = "-0" then
    .ok currentEpoch
  else if epochStr = "last" then
    .ok (if currentEpoch > 0 then currentEpoch - 1 else currentEpoch)
  else
    match goParseInt64 epochStr with
    | none => .error .failedToParseEpoch
    | some val =>
      if 0 ≤ val then .ok (goIntToUint64 val)
      else if currentEpoch < goIntToUint64 (-val) then .ok 0
      else .ok (goAdd64 currentEpoch (goIntToUint64 val))

/-- Split of a character list at each dash. -/
def splitDashChars : List Char → List (List Char)
  | [] => [[]]
  | c :: rest =>
    if c = '-' then [] :: splitDashChars rest
    else
      match splitDashChars rest with
      | [] => [[c]]
      | g :: gs => (c :: g) :: gs

/-- Model of strings.Split(s, sep) for the single-character separator used by
parseValidators. -/
def goSplitDash (s : String) : List String :=
  (splitDashChars s.data).map String.mk

/-- Model of strings.Contains(s, sep) for the single-character pattern used
by parseValidators. -/
def goContainsDash (s : String) : Bool := s.data.contains '-'

/-- The index list produced by the Go loop
for index := low; index <= high; index++ (empty when low > high). -/
def rangeIndices (low high : Nat) : List Nat := List.range' low (high + 1 - low)

/-- Embeds the selector-parsing loop of parseValidators
(validators.go 293-321), producing the gathered index list; the batched
state query that follows is external. The source then issues one Validators
query for the whole list. -/
def parseValidatorsIndices : List String → List Nat → Except GoErr (List Nat)
  | [], indices => .ok indices
  | sel :: rest, indices =>
    if goContainsDash sel then
      match goSplitDash sel with
      | [a, b] =>
        match goParseUint64 a with
        | none => .error .invalidRangeStart
        | some low =>
          match goParseUint64 b with
          | none => .error .invalidRangeEnd
          | some high => parseValidatorsIndices rest (indices ++ rangeIndices low high)
      | _ => .error .invalidRange
    else
      match goParseUint64 sel with
      | none => .error .failedToParseValidator
      | some index => parseValidatorsIndices rest (indices ++ [index])

/-- parseValidators (validators.go 292-331) up to the external state query:
the validator index list requested from the provider. -/
def parseValidators (validatorsStr : List String) : Except GoErr (List Nat) :=
  parseValidatorsIndices validatorsStr []

/-- Value of a hexadecimal digit. -/
def hexDigitVal (c : Char) : Option Nat :=
  if '0' ≤ c ∧ c ≤ '9' then some (c.toNat - ('0').toNat)
  else if 'a' ≤ c ∧ c ≤ 'f' then some (c.toNat - ('a').toNat + 10)
  else if 'A' ≤ c ∧ c ≤ 'F' then some (c.toNat - ('A').toNat + 10)
  else none

/-- Bytes of the full hex-digit pairs before the first malformed position. -/
def hexPairs : List Char → List Nat
  | c1 :: c2 :: rest =>
    match hexDigitVal c1, hexDigitVal c2 with
    | some h, some l => (16 * h + l) :: hexPairs rest
    | _, _ => []
  | _ => []

/-- Model of hexutil.Decode as consumed by ToPubKey (part_004 line 45), where
the returned error is discarded: hex.DecodeString returns the bytes decoded
before any error, so the model yields the bytes of the leading well-formed
hex pairs after a 0x prefix, and no bytes when the prefix is missing. -/
def goHexDecodeLenient (s : String) : List Nat :=
  match s.data with
  | '0' :: 'x' :: rest => hexPairs rest
  | _ => []

/-- Embeds ToPubKey (part_004 lines 44-53): the decoded bytes are copied into
a zeroed 48-byte array; copy returns min(48, len(decoded)) and the function
errors unless that count is exactly 48. Decoded input longer than 48 bytes
is therefore truncated, not rejected. -/
def ToPubKey (key : String) : Except GoErr (List Nat) :=
  let pkey := goHexDecodeLenient key
  let x := min 48 pkey.length
  if x ≠ 48 then .error .badPubKeyCopy else .ok (pkey.take 48)

/-- A validator record as of a state (apiv1.Validator fields the core reads). -/
structure Validator where
  index : Nat
  pubKey : List Nat
  activationEpoch : Nat
  exitEpoch : Nat
deriving DecidableEq, Repr

/-- Embeds parseValidator (validators.go 334-376) with the provider
modelled as two pure query maps (transport failures are out of scope): a
numeric selector queries by index, anything else is decoded as a public key
and queried by key; the first returned record wins and an empty response is
the unknown-validator error. -/
def parseValidator (queryByIndex : Nat → List Validator)
    (queryByPubKey : List Nat → List Validator) (validatorStr : String) :
    Except GoErr Validator :=
  match goParseUint64 validatorStr with
  | some index =>
    match queryByIndex index with
    | v :: _ => .ok v
    | [] => .error .unknownValidator
  | none =>
    match ToPubKey validatorStr with
    | .error e => .error e
    | .ok pk =>
      match queryByPubKey pk with
      | v :: _ => .ok v
      | [] => .error .unknownValidator

/-- A beacon block header as the core reads it (root and canonical flag). -/
structure BeaconBlockHeader where
  root : Nat
  canonical : Bool
deriving DecidableEq, Repr

/-
Modelled from the spec: the BeaconBlockHeaderCache used by the two
backward searches is referenced from validators.go but its implementation
(util.NewBeaconBlockHeaderCache, Fetch) is not among the source files.
Per the spec, fetch(slot) yields header-or-absent, absent meaning no block
exists at that exact slot (not an error), and results are memoized and never
change within a run; the cache is therefore modelled as the pure mapping
slot -> Option BeaconBlockHeader passed to the searches as a parameter
(headers).
-/

/-- Embeds the loop of AttestationHeadCorrect / AttestationTargetCorrect
(validators.go 622-647 and 650-676): fetch the header at the slot; when it
is absent or not canonical, decrement the slot (uint64 decrement, which
wraps at 0 - there is no slot 0 guard in the source) and continue; when a
canonical header is found, return whether its root equals the claimed root.
The loop is partial, so it is made total with fuel: none means the loop has
not returned within the given number of iterations. -/
def headerSearch (headers : Nat → Option BeaconBlockHeader) (claimedRoot : Nat) :
    Nat → Nat → Option Bool
  | 0, _ => none
  | fuel + 1, slot =>
    match headers slot with
    | none => headerSearch headers claimedRoot fuel (goSub64 slot 1)
    | some header =>
      if header.canonical then some (decide (header.root = claimedRoot))
      else headerSearch headers claimedRoot fuel (goSub64 slot 1)

/-- The attestation data the core reads (phase0.AttestationData). -/
structure AttestationData where
  slot : Nat
  index : Nat
  beaconBlockRoot : Nat
  targetEpoch : Nat
  targetRoot : Nat
deriving DecidableEq, Repr

/-- AttestationHeadCorrect (validators.go 622-647): the backward search from
the attested slot, compared against the claimed beacon block root. -/
def AttestationHeadCorrect (headers : Nat → Option BeaconBlockHeader)
    (fuel : Nat) (data : AttestationData) : Option Bool :=
  headerSearch headers data.beaconBlockRoot fuel data.slot

/-- AttestationTargetCorrect (validators.go 650-676): the backward search
from the first slot of the target epoch, compared against the claimed
target root. -/
def AttestationTargetCorrect (ct : ChainTime) (headers : Nat → Option BeaconBlockHeader)
    (fuel : Nat) (data : AttestationData) : Option Bool :=
  headerSearch headers data.targetRoot fuel (ct.FirstSlotOfEpoch data.targetEpoch)

/-- An attestation inside a block (phase0.Attestation): aggregation bitlist
plus data. BitAt on the bitlist is false out of range. -/
structure Attestation where
  aggregationBits : List Bool
  data : AttestationData
deriving DecidableEq, Repr

/-- An attester duty (apiv1.AttesterDuty fields the core reads). -/
structure AttesterDuty where
  slot : Nat
  committeeIndex : Nat
  validatorIndex : Nat
  validatorCommitteeIndex : Nat
deriving DecidableEq, Repr

/-- validatorFault (validators.go 24-28); InclusionDistance is declared int
in the source and receives int(inclusionDelay), hence the Int field. -/
structure validatorFault where
  Validator : Nat
  AttestationData : AttestationData
  InclusionDistance : Int
deriving DecidableEq, Repr

/-- slotAttestations (validators.go 41-49), the per-slot aggregate counters. -/
structure slotAttestations where
  Expected : Nat := 0
  Included : Nat := 0
  CorrectHead : Nat := 0
  TimelyHead : Nat := 0
  CorrectTarget : Nat := 0
  TimelyTarget : Nat := 0
  TimelySource : Nat := 0
deriving DecidableEq, Repr

/-- The zero value of slotAttestations (Go &slotAttestations\x7b\x7d). -/
def slotAttestations.empty : slotAttestations := {}

/-- nonParticipatingValidator (validators.go 30-34). -/
structure nonParticipatingValidator where
  Validator : Nat
  Slot : Nat
  Committee : Nat
deriving DecidableEq, Repr

/-- Ghost observable of one counted vote: appended exactly when the source
inserts the validator into the votes map (validators.go 555), carrying the
duty slot, the slot of the including block, and the computed inclusion
delay (the uint64 value slot - duty.Slot). -/
structure recordedVote where
  validator : Nat
  dutySlot : Nat
  includingSlot : Nat
  inclusionDelay : Nat
deriving DecidableEq, Repr

/-- The mutable state threaded through the inclusion-window scan: the votes
map (as the list of inserted validator indices, most recent first), the
per-slot stat buckets (summary.Slots[i].Attestations), the five fault lists
of the summary, and the ghost trace of counted votes in scan order. -/
structure scanState where
  votes : List Nat
  slots : List slotAttestations
  IncorrectHeadValidators : List validatorFault
  UntimelyHeadValidators : List validatorFault
  UntimelySourceValidators : List validatorFault
  IncorrectTargetValidators : List validatorFault
  UntimelyTargetValidators : List validatorFault
  trace : List recordedVote
deriving DecidableEq, Repr, Inhabited

/-- In-place update of the stat bucket at an index
(summary.Slots[index].Attestations.X++). An out-of-range index is a no-op
here; in the source it is an index-out-of-range panic, which cannot occur
while duties lie inside the summarized epoch. -/
def modifySlot (slots : List slotAttestations) (idx : Nat)
    (f : slotAttestations → slotAttestations) : List slotAttestations :=
  slots.set idx (f (slots.getD idx slotAttestations.empty))

/-- The stat bucket of a scan state at an index. -/
def scanState.slotAt (st : scanState) (idx : Nat) : slotAttestations :=
  st.slots.getD idx slotAttestations.empty

/-- Attestations.Expected++ at an index. -/
def bumpExpected (slots : List slotAttestations) (idx : Nat) : List slotAttestations :=
  modifySlot slots idx (fun a => { a with Expected := a.Expected + 1 })

/-- Attestations.Included++ at an index. -/
def bumpIncluded (slots : List slotAttestations) (idx : Nat) : List slotAttestations :=
  modifySlot slots idx (fun a => { a with Included := a.Included + 1 })

/-- Attestations.CorrectHead++ at an index. -/
def bumpCorrectHead (slots : List slotAttestations) (idx : Nat) : List slotAttestations :=
  modifySlot slots idx (fun a => { a with CorrectHead := a.CorrectHead + 1 })

/-- Attestations.TimelyHead++ at an index. -/
def bumpTimelyHead (slots : List slotAttestations) (idx : Nat) : List slotAttestations :=
  modifySlot slots idx (fun a => { a with TimelyHead := a.TimelyHead + 1 })

/-- Attestations.CorrectTarget++ at an index. -/
def bumpCorrectTarget (slots : List slotAttestations) (idx : Nat) : List slotAttestations :=
  modifySlot slots idx (fun a => { a with CorrectTarget := a.CorrectTarget + 1 })

/-- Attestations.TimelyTarget++ at an index. -/
def bumpTimelyTarget (slots : List slotAttestations) (idx : Nat) : List slotAttestations :=
  modifySlot slots idx (fun a => { a with TimelyTarget := a.TimelyTarget + 1 })

/-- Attestations.TimelySource++ at an index. -/
def bumpTimelySource (slots : List slotAttestations) (idx : Nat) : List slotAttestations :=
  modifySlot slots idx (fun a => { a with TimelySource := a.TimelySource + 1 })

/-- Embeds the classification block of processAttesterDutiesSlot
(validators.go 562-608) for one newly counted vote: head correctness and
timeliness (delay == 1), source timeliness (delay <= 5), target correctness
and timeliness (delay <= 32), updating the owning slot bucket at idx and
appending the fault record to the corresponding lists. All comparisons are
on the uint64 inclusionDelay value, as in the source. -/
def classifyVote (headCorrect targetCorrect : Bool) (inclusionDelay : Nat)
    (idx : Nat) (fault : validatorFault) (st : scanState) : scanState :=
  let st :=
    if headCorrect then
      let st := { st with slots := bumpCorrectHead st.slots idx }
      if inclusionDelay = 1 then
        { st with slots := bumpTimelyHead st.slots idx }
      else
        { st with UntimelyHeadValidators := st.UntimelyHeadValidators ++ [fault] }
    else
      let st := { st with IncorrectHeadValidators := st.IncorrectHeadValidators ++ [fault] }
      if 1 < inclusionDelay then
        { st with UntimelyHeadValidators := st.UntimelyHeadValidators ++ [fault] }
      else st
  let st :=
    if inclusionDelay ≤ 5 then
      { st with slots := bumpTimelySource st.slots idx }
    else
      { st with UntimelySourceValidators := st.UntimelySourceValidators ++ [fault] }
  if targetCorrect then
    let st := { st with slots := bumpCorrectTarget st.slots idx }
    if inclusionDelay ≤ 32 then
      { st with slots := bumpTimelyTarget st.slots idx }
    else
      { st with UntimelyTargetValidators := st.UntimelyTargetValidators ++ [fault] }
  else
    let st := { st with IncorrectTargetValidators := st.IncorrectTargetValidators ++ [fault] }
    if 32 < inclusionDelay then
      { st with UntimelyTargetValidators := st.UntimelyTargetValidators ++ [fault] }
    else st

/-- Embeds the body of the per-duty loop of processAttesterDutiesSlot
(validators.go 548-609) for one duty of the matching (slot, committee):
the aggregation-bit test (BitAt, false out of range), the duplicate check
against the votes map, and for a new vote the insertion into the map, the
Included increment of the owning bucket, the delay computation
slot - duty.Slot in uint64, and the classification. headOf / targetOf give
the results of the AttestationHeadCorrect / AttestationTargetCorrect
searches for executions in which those searches return (the searches
themselves are embedded separately as headerSearch). -/
def processDutyMatch (firstSlotOfEpoch includingSlot : Nat)
    (headOf targetOf : AttestationData → Bool) (attestation : Attestation)
    (st : scanState) (duty : AttesterDuty) : scanState :=
  if attestation.aggregationBits.getD duty.validatorCommitteeIndex false then
    if duty.validatorIndex ∈ st.votes then st
    else
      let idx := goSub64 attestation.data.slot firstSlotOfEpoch
      let inclusionDelay := goSub64 includingSlot duty.slot
      let fault : validatorFault :=
        { Validator := duty.validatorIndex
          AttestationData := attestation.data
          InclusionDistance := goUint64ToInt inclusionDelay }
      let st := { st with
        votes := duty.validatorIndex :: st.votes
        trace := st.trace ++ [⟨duty.validatorIndex, duty.slot, includingSlot, inclusionDelay⟩]
        slots := bumpIncluded st.slots idx }
      classifyVote (headOf attestation.data) (targetOf attestation.data)
        inclusionDelay idx fault st
  else st

/-- The duty list dutiesBySlot[slot][committee] (validators.go 455-468):
duties are appended in their response order, and a missing slot or
committee key is the empty list (on which the source continues). -/
def dutiesBySlot (duties : List AttesterDuty) (slot committee : Nat) :
    List AttesterDuty :=
  duties.filter (fun d => d.slot = slot ∧ d.committeeIndex = committee)

/-- One attestation of a block (validators.go 539-548): look up the duties
of its (slot, committee) and run the duty loop over them. -/
def processAttestation (firstSlotOfEpoch includingSlot : Nat)
    (headOf targetOf : AttestationData → Bool) (duties : List AttesterDuty)
    (st : scanState) (attestation : Attestation) : scanState :=
  (dutiesBySlot duties attestation.data.slot attestation.data.index).foldl
    (processDutyMatch firstSlotOfEpoch includingSlot headOf targetOf attestation) st

/-- The attestation loop of processAttesterDutiesSlot (validators.go
539-616), including the break once every active validator has voted
(len(votes) == len(activeValidatorIndices), checked after each
attestation). -/
def processBlockAttestations (firstSlotOfEpoch includingSlot activeCount : Nat)
    (headOf targetOf : AttestationData → Bool) (duties : List AttesterDuty)
    (st : scanState) : List Attestation → scanState
  | [] => st
  | attestation :: rest =>
    let st := processAttestation firstSlotOfEpoch includingSlot headOf targetOf
      duties st attestation
    if st.votes.length = activeCount then st
    else processBlockAttestations firstSlotOfEpoch includingSlot activeCount
      headOf targetOf duties st rest

/-- Embeds processAttesterDutiesSlot (validators.go 515-619) for executions
without transport failures: blocks slot = none models the 404/not-found
block response, on which the source returns leaving the state unchanged. -/
def processAttesterDutiesSlot (blocks : Nat → Option (List Attestation))
    (firstSlotOfEpoch activeCount : Nat)
    (headOf targetOf : AttestationData → Bool) (duties : List AttesterDuty)
    (slot : Nat) (st : scanState) : scanState :=
  match blocks slot with
  | none => st
  | some attestations =>
    processBlockAttestations firstSlotOfEpoch slot activeCount headOf targetOf
      duties st attestations

/-- getActiveValidators (validators.go 412-423): the ordered index list of
the selected validators active in the epoch
(ActivationEpoch <= epoch < ExitEpoch). -/
def getActiveValidators (validators : List Validator) (epoch : Nat) : List Nat :=
  (validators.filter
    (fun v => v.activationEpoch ≤ epoch ∧ epoch < v.exitEpoch)).map Validator.index

/-- dutiesByValidatorIndex (validators.go 456-459): a map write per duty in
response order, so the last duty of a validator wins; a missing key is the
nil pointer, modelled as none. -/
def dutiesByValidatorIndex (duties : List AttesterDuty) (v : Nat) :
    Option AttesterDuty :=
  duties.reverse.find? (fun d => d.validatorIndex = v)

/-- The Expected counters (validators.go 446-449 and 457-460): one zeroed
bucket per slot of the epoch, then Expected++ in the bucket of each duty
(index duty.Slot - FirstSlotOfEpoch(epoch)). -/
def initExpected (slotsPerEpoch firstSlotOfEpoch : Nat)
    (duties : List AttesterDuty) : List slotAttestations :=
  duties.foldl
    (fun slots d => bumpExpected slots (goSub64 d.slot firstSlotOfEpoch))
    (List.replicate slotsPerEpoch slotAttestations.empty)

/-- Embeds the non-participation pass (validators.go 484-496): every active
validator that is not in the votes map is reported with the slot and
committee of its duty record. The source reads duty.Slot without checking
that the duty exists; when dutiesByValidatorIndex has no entry the Go map
yields a nil pointer and that read is a nil-pointer dereference, modelled
as the GoPanic result (a crash, not a returned error). -/
def nonParticipatingPass (duties : List AttesterDuty) (votes : List Nat) :
    List Nat → Except GoPanic (List nonParticipatingValidator)
  | [] => .ok []
  | index :: rest =>
    if index ∈ votes then nonParticipatingPass duties votes rest
    else
      match dutiesByValidatorIndex duties index with
      | none => .error .nilPointerDereference
      | some duty => do
        let tail ← nonParticipatingPass duties votes rest
        .ok ({ Validator := index, Slot := duty.slot,
               Committee := duty.committeeIndex } :: tail)

/-- The comparator of the sort of NonParticipatingValidators
(validators.go 499-507): by slot, then committee, then validator index. -/
def nonParticipatingLE (a b : nonParticipatingValidator) : Bool :=
  if a.Slot ≠ b.Slot then a.Slot < b.Slot
  else if a.Committee ≠ b.Committee then a.Committee < b.Committee
  else a.Validator ≤ b.Validator

/-- Insertion sort by a Bool comparator (models sort.Slice, whose result is
determined by the comparator on the distinct triples sorted here). -/
def insertSorted (le : nonParticipatingValidator → nonParticipatingValidator → Bool)
    (x : nonParticipatingValidator) :
    List nonParticipatingValidator → List nonParticipatingValidator
  | [] => [x]
  | y :: ys => if le x y then x :: y :: ys else y :: insertSorted le x ys

/-- Sort of the non-participating list by the source comparator. -/
def sortNonParticipating :
    List nonParticipatingValidator → List nonParticipatingValidator
  | [] => []
  | x :: xs => insertSorted nonParticipatingLE x (sortNonParticipating xs)

/-- The inputs of one attester-duty processing run (validators.go 425-513):
the epoch and chain constants, the current slot (a wall-clock reading in
the source), the attester-duties response, the block fetch oracle (none is
the 404 response; transport failures abort the summarization and are out of
scope of the returned state), the results of the two correctness searches,
and the active validator index list. -/
structure AttesterInputs where
  epoch : Nat
  slotsPerEpoch : Nat
  currentSlot : Nat
  duties : List AttesterDuty
  blocks : Nat → Option (List Attestation)
  headOf : AttestationData → Bool
  targetOf : AttestationData → Bool
  activeValidatorIndices : List Nat

/-- The outputs of one attester-duty processing run. -/
structure attesterSummary where
  st : scanState
  NonParticipatingValidators : List nonParticipatingValidator
  ActiveValidators : Nat
  ParticipatingValidators : Nat
deriving DecidableEq, Repr, Inhabited

/-- The initial scan state: empty votes map, the Expected-initialized
buckets, the five fault lists freshly allocated (validators.go 470-474),
and the empty ghost trace. -/
def initialScanState (inp : AttesterInputs) : scanState :=
  { votes := []
    slots := initExpected inp.slotsPerEpoch
      (goMul64 inp.epoch inp.slotsPerEpoch) inp.duties
    IncorrectHeadValidators := []
    UntimelyHeadValidators := []
    UntimelySourceValidators := []
    IncorrectTargetValidators := []
    UntimelyTargetValidators := []
    trace := [] }

/-- The slot window of the inclusion scan (validators.go 429-435): from
FirstSlotOfEpoch(epoch)+1 through FirstSlotOfEpoch(epoch+2) capped at the
current slot, inclusive (empty when the cap falls below the start). -/
def scanWindow (inp : AttesterInputs) : List Nat :=
  let firstSlot := goAdd64 (goMul64 inp.epoch inp.slotsPerEpoch) 1
  let lastSlot0 := goMul64 (inp.epoch + 2) inp.slotsPerEpoch
  let lastSlot := if inp.currentSlot < lastSlot0 then inp.currentSlot else lastSlot0
  List.range' firstSlot (lastSlot + 1 - firstSlot)

/-- The block scan of processAttesterDuties (validators.go 476-482): fold
processAttesterDutiesSlot over the inclusion window. -/
def scanPhase (inp : AttesterInputs) : scanState :=
  (scanWindow inp).foldl
    (fun st slot => processAttesterDutiesSlot inp.blocks
      (goMul64 inp.epoch inp.slotsPerEpoch) inp.activeValidatorIndices.length
      inp.headOf inp.targetOf inp.duties slot st)
    (initialScanState inp)

/-- Embeds processAttesterDuties (validators.go 425-513) for executions
without transport failures: the inclusion-window scan, the non-participation
pass (whose nil-pointer dereference panic propagates as the crash of the
whole summarization), the sort, and the two aggregate counts
ActiveValidators = len(activeValidators) (the map keyed by index, hence the
dedup) and ParticipatingValidators = len(votes). -/
def processAttesterDuties (inp : AttesterInputs) :
    Except GoPanic attesterSummary := do
  let st := scanPhase inp
  let nonPart ← nonParticipatingPass inp.duties st.votes inp.activeValidatorIndices
  .ok { st := st
        NonParticipatingValidators := sortNonParticipating nonPart
        ActiveValidators := inp.activeValidatorIndices.dedup.length
        ParticipatingValidators := st.votes.length }

/-- A proposer duty (apiv1.ProposerDuty fields the core reads). -/
structure ProposerDuty where
  slot : Nat
  validatorIndex : Nat
deriving DecidableEq, Repr

/-- epochProposal (validators.go 51-55). -/
structure epochProposal where
  Slot : Nat
  Proposer : Nat
  Block : Bool
deriving DecidableEq, Repr

/-- The three outcomes of the SignedBeaconBlock fetch as the source
distinguishes them (validators.go 389-401): a response whose Data may be
nil, a 404 api.Error, or any other failure. -/
inductive blockFetchResult where
  | ok (blockPresent : Bool)
  | notFound
  | failure
deriving DecidableEq, Repr

/-- Embeds the duty loop of processProposerDuties (validators.go 378-410):
duties of unselected validators are skipped; a 404 on the block fetch makes
the function return nil immediately (recording nothing for that duty and
leaving every remaining duty unprocessed); any other fetch failure aborts
with an error; otherwise a proposal entry is appended with the
block-present boolean. -/
def processProposerDuties (fetch : Nat → blockFetchResult)
    (isSelected : Nat → Bool) :
    List ProposerDuty → List epochProposal → Except GoErr (List epochProposal)
  | [], acc => .ok acc
  | duty :: rest, acc =>
    if isSelected duty.validatorIndex then
      match fetch duty.slot with
      | .notFound => .ok acc
      | .failure => .error .failedToObtainBlock
      | .ok present =>
        processProposerDuties fetch isSelected rest
          (acc ++ [{ Slot := duty.slot, Proposer := duty.validatorIndex,
                     Block := present }])
    else processProposerDuties fetch isSelected rest acc

/-
Concrete fixtures used by the witness and counterexample theorems below.
-/

/-- The invariant of the inclusion-window scan: the votes map holds exactly
the validators of the counted votes (trace), each validator is counted at
most once, every counted vote belongs to an attester duty, and every
recorded delay is the uint64 difference includingSlot - dutySlot. -/
def scanStateOK (duties : List AttesterDuty) (st : scanState) : Prop :=
  st.votes = (st.trace.map recordedVote.validator).reverse
  ∧ st.votes.Nodup
  ∧ ∀ e ∈ st.trace,
      (∃ d ∈ duties, d.validatorIndex = e.validator)
      ∧ e.inclusionDelay = goSub64 e.includingSlot e.dutySlot

/-- Scan state with one empty slot bucket, used as a classification fixture. -/
def c1st : scanState :=
  { votes := [], slots := [slotAttestations.empty]
    IncorrectHeadValidators := [], UntimelyHeadValidators := []
    UntimelySourceValidators := [], IncorrectTargetValidators := []
    UntimelyTargetValidators := [], trace := [] }

/-- A fault record fixture. -/
def c1fault : validatorFault :=
  { Validator := 7, AttestationData := ⟨5, 0, 42, 0, 42⟩, InclusionDistance := 1 }

/-- Block fetch fixture: the block of slot 3 yields 404, every other slot has
a block. -/
def c3fetch : Nat → blockFetchResult :=
  fun s => if s = 3 then .notFound else .ok true

/-- Chain constants with three (non power of two) slots per epoch. -/
def ctC6 : ChainTime := ⟨0, 12, 3, 0⟩

/-- Mainnet-like chain constants. -/
def ct32 : ChainTime := ⟨0, 12, 32, 256⟩

/-- Attester processing fixture in which the only attestation sits in the
block of slot 3 but attests slot 5, so the including slot precedes the duty
slot. -/
def c7inp : AttesterInputs :=
  { epoch := 0, slotsPerEpoch := 32, currentSlot := 3
    duties := [⟨5, 0, 7, 0⟩]
    blocks := fun s => if s = 3 then some [⟨[true], ⟨5, 0, 0, 0, 0⟩⟩] else none
    headOf := fun _ => true, targetOf := fun _ => true
    activeValidatorIndices := [7] }

/-- The summary produced on the c7inp fixture. -/
def c7fin : attesterSummary := (processAttesterDuties c7inp).toOption.getD default

/-- Attester processing fixture with a single timely vote: duty at slot 5,
vote included in the block of slot 6. -/
def c7winp : AttesterInputs :=
  { epoch := 0, slotsPerEpoch := 32, currentSlot := 6
    duties := [⟨5, 0, 7, 0⟩]
    blocks := fun s => if s = 6 then some [⟨[true], ⟨5, 0, 0, 0, 0⟩⟩] else none
    headOf := fun _ => true, targetOf := fun _ => true
    activeValidatorIndices := [7] }

/-- The summary produced on the c7winp fixture. -/
def c7wfin : attesterSummary := (processAttesterDuties c7winp).toOption.getD default

/-- Attester processing fixture with two duty validators at slot 5 of epoch
1: validator 3 votes in the block of slot 6 (delay 1) and again in the block
of slot 7 (a duplicate), validator 9 votes only in the block of slot 7
(delay 2). -/
def c5winp : AttesterInputs :=
  { epoch := 1, slotsPerEpoch := 4, currentSlot := 9
    duties := [⟨5, 0, 3, 0⟩, ⟨5, 0, 9, 1⟩]
    blocks := fun s =>
      if s = 6 then some [⟨[true, false], ⟨5, 0, 0, 0, 0⟩⟩]
      else if s = 7 then some [⟨[true, true], ⟨5, 0, 0, 0, 0⟩⟩]
      else none
    headOf := fun _ => true, targetOf := fun _ => true
    activeValidatorIndices := [3, 9] }

/-- The summary produced on the c5winp fixture. -/
def c5fin : attesterSummary := (processAttesterDuties c5winp).toOption.getD default

/-- A 0x-hex string of 100 hex digits, decoding to 50 bytes. -/
def c8LongKey : String :=
  "0xaaaaaaaaaaaaaaaaaaaaaaaaaaaaaaaaaaaaaaaaaaaaaaaaaaaaaaaaaaaaaaaaaaaaaaaaaaaaaaaaaaaaaaaaaaaaaaaabbbb"

/-
Helper lemmas (shared).
-/

theorem modifySlot_length (slots : List slotAttestations) (idx : Nat)
    (f : slotAttestations → slotAttestations) :
    (modifySlot slots idx f).length = slots.length := by
  simp [modifySlot]

theorem modifySlot_getD_self (slots : List slotAttestations) (idx : Nat)
    (f : slotAttestations → slotAttestations) (h : idx < slots.length) :
    (modifySlot slots idx f).getD idx slotAttestations.empty
      = f (slots.getD idx slotAttestations.empty) := by
  simp [modifySlot, List.getD, List.getElem?_set_self, h]

theorem modifySlot_getElem_self (slots : List slotAttestations) (idx : Nat)
    (f : slotAttestations → slotAttestations)
    (h : idx < (modifySlot slots idx f).length) :
    (modifySlot slots idx f)[idx] = f (slots.getD idx slotAttestations.empty) := by
  simp [modifySlot]

theorem classifyVote_votes (hc tc : Bool) (d idx : Nat) (fault : validatorFault)
    (st : scanState) : (classifyVote hc tc d idx fault st).votes = st.votes := by
  cases hc <;> cases tc <;> simp only [classifyVote] <;> split_ifs <;> rfl

theorem classifyVote_trace (hc tc : Bool) (d idx : Nat) (fault : validatorFault)
    (st : scanState) : (classifyVote hc tc d idx fault st).trace = st.trace := by
  cases hc <;> cases tc <;> simp only [classifyVote] <;> split_ifs <;> rfl

theorem goParseInt64_range (s : String) (v : Int) (h : goParseInt64 s = some v) :
    -(2 ^ 63 : Int) ≤ v ∧ v ≤ 2 ^ 63 - 1 := by
  unfold goParseInt64 at h
  rcases hs : s.data with _ | ⟨c, rest⟩ <;> rw [hs] at h
  · simp at h
  · simp only at h
    split_ifs at h <;> (rw [Option.some_inj] at h; subst h; constructor <;> omega)

theorem goIntToUint64_of_nonneg (v : Int) (h0 : 0 ≤ v) (h1 : v < (U64 : Int)) :
    goIntToUint64 v = v.toNat := by
  unfold goIntToUint64 U64 at *
  omega

theorem goIntToUint64_of_neg (v : Int) (h0 : v < 0) (h1 : -(2 ^ 63 : Int) ≤ v) :
    goIntToUint64 v = U64 - (-v).toNat := by
  unfold goIntToUint64 U64 at *
  omega

/-
Claim theorems.
-/

/-- Claim C2: the canonical-header backward search of AttestationHeadCorrect
and AttestationTargetCorrect walks downward from the starting slot through
absent or non-canonical headers, but the source has no slot 0 guard: the
uint64 slot decrement wraps at 0 and the loop continues instead of
terminating with an invariant-violation error. On a header oracle with no
canonical header at any slot (here: every fetch absent), the loop never
returns, whatever the starting slot and however much fuel it is given. -/
theorem headerSearch_no_canonical_never_returns :
    ∀ (claimedRoot fuel slot : Nat),
      headerSearch (fun _ => none) claimedRoot fuel slot = none := by
  intro claimedRoot fuel
  induction fuel with
  | zero => intro slot; rfl
  | succ n ih =>
    intro slot
    rw [headerSearch]
    exact ih (goSub64 slot 1)

/-- Claim C3: on the first 404 block response, processProposerDuties returns
immediately: the duty whose block was not found gets no proposal entry, and
the remaining proposer duties of the epoch are never processed (here: two
selected duties, the first block fetch is 404, and the result is empty
instead of one entry with Block = false plus one for the second duty). With
no 404 in the way, both duties are recorded. -/
theorem proposerDuties_abort_on_first_not_found :
    processProposerDuties c3fetch (fun _ => true) [⟨3, 1⟩, ⟨7, 2⟩] [] = .ok []
    ∧ processProposerDuties (fun _ => .ok true) (fun _ => true) [⟨3, 1⟩, ⟨7, 2⟩] []
        = .ok [⟨3, 1, true⟩, ⟨7, 2, true⟩] := by
  decide

/-- Claim C9: when EPOCHS_PER_SYNC_COMMITTEE_PERIOD was never supplied at
construction, the field keeps the Go zero value and the sync-committee
period conversions perform a uint64 division by zero: a runtime panic
(crash), not a missing-spec-constant error. -/
theorem syncCommitteePeriod_division_panics :
    (NewChainTime 0 12 32 none).SlotToSyncCommitteePeriod 100
        = .error .divideByZero
    ∧ (NewChainTime 0 12 32 none).CurrentSyncCommitteePeriodAt 3
        = .error .divideByZero := by
  decide

/-- Claim C4 counterexample: 2^63 is a non-negative integer literal and a
representable epoch, but ParseEpoch rejects it (strconv.ParseInt is limited
to int64), instead of resolving it to the literal value as the claim
states. -/
theorem parseEpoch_large_literal_rejected :
    ParseEpoch 5 "9223372036854775808" = .error .failedToParseEpoch
    ∧ ParseEpoch 5 "9223372036854775808" ≠ .ok 9223372036854775808 := by
  decide

/-- Claim C4 (amended: integer literals are those of a signed 64-bit
integer; anything else, including out-of-range literals, is rejected). For
every current epoch E below 2^64: the empty string, current, head and -0
resolve to E; last resolves to E-1 clamped at 0; a literal with value
v >= 0 resolves to the absolute epoch v; a literal with value v < 0
resolves to E - (-v) when -v <= E and to 0 otherwise; any other input fails
with the parse error. -/
theorem parseEpoch_resolution (E : Nat) (s : String) (hE : E < U64) :
    ((s = "" ∨ s = "current" ∨ s = "head" ∨ s = "-0") → ParseEpoch E s = .ok E)
    ∧ (s = "last" → ParseEpoch E s = .ok (E - 1))
    ∧ (¬ isEpochKeyword s → ∀ v : Int, goParseInt64 s = some v →
        (0 ≤ v → ParseEpoch E s = .ok v.toNat)
        ∧ (v < 0 → ((-v).toNat ≤ E → ParseEpoch E s = .ok (E - (-v).toNat))
            ∧ (E < (-v).toNat → ParseEpoch E s = .ok 0)))
    ∧ (¬ isEpochKeyword s → goParseInt64 s = none →
        ParseEpoch E s = .error .failedToParseEpoch) := by
  refine ⟨?_, ?_, ?_, ?_⟩
  · intro hkw
    rcases hkw with h | h | h | h <;> subst h <;> simp [ParseEpoch]
  · intro h
    subst h
    unfold ParseEpoch
    rw [if_neg (by decide), if_pos rfl]
    congr 1
    split_ifs <;> omega
  · intro hkw v hv
    unfold isEpochKeyword at hkw
    push_neg at hkw
    obtain ⟨h1, h2, h3, h4, h5⟩ := hkw
    have hrange := goParseInt64_range s v hv
    constructor
    · intro h0
      simp only [ParseEpoch, hv]
      rw [if_neg (by simp [h1, h2, h3, h4]), if_neg h5]
      rw [if_pos h0, goIntToUint64_of_nonneg v h0 (by unfold U64; omega)]
    · intro hneg
      have ha : goIntToUint64 (-v) = (-v).toNat := by
        rw [goIntToUint64_of_nonneg (-v) (by omega) (by unfold U64; omega)]
      constructor
      · intro hle
        simp only [ParseEpoch, hv]
        rw [if_neg (by simp [h1, h2, h3, h4]), if_neg h5]
        rw [if_neg (by omega), ha, if_neg (by omega)]
        rw [goIntToUint64_of_neg v hneg hrange.1]
        congr 1
        unfold goAdd64 U64 at *
        omega
      · intro hgt
        simp only [ParseEpoch, hv]
        rw [if_neg (by simp [h1, h2, h3, h4]), if_neg h5]
        rw [if_neg (by omega), ha, if_pos (by omega)]
  · intro hkw hnone
    unfold isEpochKeyword at hkw
    push_neg at hkw
    obtain ⟨h1, h2, h3, h4, h5⟩ := hkw
    simp only [ParseEpoch, hnone]
    rw [if_neg (by simp [h1, h2, h3, h4]), if_neg h5]

/-- Claim C4 witness: the amended resolution at concrete descriptors. -/
theorem parseEpoch_resolution_witness :
    ParseEpoch 5 "current" = .ok 5
    ∧ ParseEpoch 0 "last" = .ok 0
    ∧ ParseEpoch 5 "-1" = .ok 4
    ∧ ParseEpoch 5 "-10" = .ok 0
    ∧ ParseEpoch 5 "gibberish" = .error .failedToParseEpoch := by
  refine ⟨?_, ?_, ?_, ?_, ?_⟩
  · exact (parseEpoch_resolution 5 "current" (by decide)).1
      (Or.inr (Or.inl rfl))
  · exact (parseEpoch_resolution 0 "last" (by decide)).2.1 rfl
  · exact (((parseEpoch_resolution 5 "-1" (by decide)).2.2.1 (by decide)
      (-1) (by decide)).2 (by decide)).1 (by decide)
  · exact (((parseEpoch_resolution 5 "-10" (by decide)).2.2.1 (by decide)
      (-10) (by decide)).2 (by decide)).2 (by decide)
  · exact (parseEpoch_resolution 5 "gibberish" (by decide)).2.2.2
      (by decide) (by decide)

/-- Claim C6 counterexample: with slotsPerEpoch = 3 and the largest uint64
slot s, LastSlotOfEpoch(SlotToEpoch(s)) wraps modulo 2^64 to 1, so
s <= LastSlotOfEpoch(SlotToEpoch(s)) fails. -/
theorem lastSlotOfEpoch_wraps :
    ctC6.SlotToEpoch 18446744073709551615 = .ok 6148914691236517205
    ∧ ¬ (18446744073709551615 ≤ ctC6.LastSlotOfEpoch 6148914691236517205) := by
  decide

/-- Claim C6 (amended: the lower bound holds unconditionally; the upper
bound holds whenever the uint64 computation of the last slot does not wrap,
in particular for every slot when slotsPerEpoch divides 2^64): for every
slot s below 2^64 and positive slotsPerEpoch, with e = SlotToEpoch(s),
FirstSlotOfEpoch(e) <= s, and s <= LastSlotOfEpoch(e) provided
e * slotsPerEpoch + slotsPerEpoch - 1 < 2^64. -/
theorem slot_epoch_round_trip (ct : ChainTime) (s e : Nat)
    (hspe : 0 < ct.slotsPerEpoch) (hs : s < U64)
    (he : ct.SlotToEpoch s = .ok e) :
    ct.FirstSlotOfEpoch e ≤ s
    ∧ (e * ct.slotsPerEpoch + ct.slotsPerEpoch - 1 < U64 →
        s ≤ ct.LastSlotOfEpoch e) := by
  unfold ChainTime.SlotToEpoch goDiv64 at he
  rw [if_neg (by omega)] at he
  rw [Except.ok.injEq] at he
  subst he
  have hdm := Nat.div_add_mod s ct.slotsPerEpoch
  have hml := Nat.mod_lt s hspe
  unfold ChainTime.FirstSlotOfEpoch ChainTime.LastSlotOfEpoch goMul64 goAdd64 goSub64
  rw [Nat.mul_comm (s / ct.slotsPerEpoch) ct.slotsPerEpoch] at *
  generalize hp : ct.slotsPerEpoch * (s / ct.slotsPerEpoch) = p at *
  unfold U64 at *
  constructor
  · omega
  · intro hov
    omega

/-- Claim C6 witness: the amended round trip at slot 100 with 32 slots per
epoch. -/
theorem slot_epoch_round_trip_witness :
    ct32.FirstSlotOfEpoch 3 ≤ 100 ∧ 100 ≤ ct32.LastSlotOfEpoch 3 := by
  refine ⟨(slot_epoch_round_trip ct32 100 3 (by decide) (by decide) (by decide)).1,
    (slot_epoch_round_trip ct32 100 3 (by decide) (by decide) (by decide)).2 (by decide)⟩

/-- Claim C8 counterexample: a decreasing range does not fail with an
invalid-range error (the Go loop simply produces no indices, so the whole
parse succeeds), and a public key that decodes to 50 bytes is not rejected
with a bad-length error (copy truncates it to 48 bytes and succeeds). -/
theorem validatorSelector_lenient_cases :
    parseValidators ["7-3"] = .ok []
    ∧ (goHexDecodeLenient c8LongKey).length = 50
    ∧ ToPubKey c8LongKey = .ok (List.replicate 48 170) := by
  decide

/-- Claim C8 (amended: a range fails with the invalid-range error only when
it has other than two dash-separated parts; a decreasing range A > B gives
no indices and no error; the bad-public-key error occurs exactly when the
decoded key is shorter than 48 bytes, longer keys being truncated): the
error conditions of selector parsing, ToPubKey and single-validator
lookup. -/
theorem validatorSelector_error_conditions :
    (∀ (s : String) (rest : List String) (acc : List Nat),
        goContainsDash s = true → (goSplitDash s).length ≠ 2 →
        parseValidatorsIndices (s :: rest) acc = .error .invalidRange)
    ∧ (∀ (s : String) (rest : List String) (acc : List Nat),
        goContainsDash s = false → goParseUint64 s = none →
        parseValidatorsIndices (s :: rest) acc = .error .failedToParseValidator)
    ∧ (∀ low high : Nat, high < low → rangeIndices low high = [])
    ∧ (∀ s : String, (goHexDecodeLenient s).length < 48 →
        ToPubKey s = .error .badPubKeyCopy)
    ∧ (∀ s : String, 48 ≤ (goHexDecodeLenient s).length →
        ToPubKey s = .ok ((goHexDecodeLenient s).take 48))
    ∧ (∀ (qI : Nat → List Validator) (qP : List Nat → List Validator)
        (s : String) (idx : Nat),
        goParseUint64 s = some idx → qI idx = [] →
        parseValidator qI qP s = .error .unknownValidator)
    ∧ (∀ (qI : Nat → List Validator) (qP : List Nat → List Validator)
        (s : String) (pk : List Nat),
        goParseUint64 s = none → ToPubKey s = .ok pk → qP pk = [] →
        parseValidator qI qP s = .error .unknownValidator) := by
  refine ⟨?_, ?_, ?_, ?_, ?_, ?_, ?_⟩
  · intro s rest acc hc hlen
    rw [parseValidatorsIndices, if_pos hc]
    rcases hsp : goSplitDash s with _ | ⟨a, _ | ⟨b, _ | ⟨c, tl⟩⟩⟩
    · rfl
    · rfl
    · exact absurd (by rw [hsp]; rfl) hlen
    · rfl
  · intro s rest acc hc hnum
    rw [parseValidatorsIndices, if_neg (by simp [hc]), hnum]
  · intro low high hlt
    unfold rangeIndices
    rw [Nat.sub_eq_zero_of_le (by omega)]
    rfl
  · intro s hlen
    simp only [ToPubKey]
    rw [if_pos (by omega)]
  · intro s hlen
    simp only [ToPubKey]
    rw [if_neg (by omega)]
  · intro qI qP s idx hidx hempty
    simp only [parseValidator, hidx, hempty]
  · intro qI qP s pk hnum hpk hempty
    simp only [parseValidator, hnum, hpk, hempty]

/-- Claim C8 witness: the amended error conditions at concrete selectors. -/
theorem validatorSelector_error_conditions_witness :
    parseValidatorsIndices ["1-2-3"] [] = .error .invalidRange
    ∧ parseValidatorsIndices ["xyz"] [] = .error .failedToParseValidator
    ∧ rangeIndices 7 3 = []
    ∧ ToPubKey "0xabcd" = .error .badPubKeyCopy
    ∧ parseValidator (fun _ => []) (fun _ => []) "12" = .error .unknownValidator := by
  refine ⟨?_, ?_, ?_, ?_, ?_⟩
  · exact validatorSelector_error_conditions.1 "1-2-3" [] [] (by decide) (by decide)
  · exact validatorSelector_error_conditions.2.1 "xyz" [] [] (by decide) (by decide)
  · exact validatorSelector_error_conditions.2.2.1 7 3 (by decide)
  · exact validatorSelector_error_conditions.2.2.2.1 "0xabcd" (by decide)
  · exact validatorSelector_error_conditions.2.2.2.2.2.1 (fun _ => [])
      (fun _ => []) "12" 12 (by decide) rfl

/-- Claim C10: the non-participation pass is well-defined exactly under the
precondition that every active validator either has a recorded vote or has
an entry in the attester-duties index: under the precondition it returns a
list; an active validator with no vote and no duty makes it dereference a
nil duty pointer, and that panic propagates as the crash of the whole
processAttesterDuties run (no summary and no returned error). -/
theorem nonParticipation_requires_duty (duties : List AttesterDuty)
    (votes active : List Nat) :
    ((∀ i ∈ active, i ∈ votes ∨ (dutiesByValidatorIndex duties i).isSome = true) →
      ∃ l, nonParticipatingPass duties votes active = .ok l)
    ∧ (∀ i ∈ active, i ∉ votes → dutiesByValidatorIndex duties i = none →
        nonParticipatingPass duties votes active = .error .nilPointerDereference)
    ∧ (∀ (inp : AttesterInputs) (p : GoPanic),
        nonParticipatingPass inp.duties (scanPhase inp).votes
          inp.activeValidatorIndices = .error p →
        processAttesterDuties inp = .error p) := by
  refine ⟨?_, ?_, ?_⟩
  · induction active with
    | nil => intro _; exact ⟨[], rfl⟩
    | cons j rest ih =>
      intro h
      rw [nonParticipatingPass]
      by_cases hjv : j ∈ votes
      · rw [if_pos hjv]
        exact ih (fun i hi => h i (List.mem_cons_of_mem j hi))
      · rw [if_neg hjv]
        rcases h j (List.mem_cons_self j rest) with hv | hsome
        · exact absurd hv hjv
        · obtain ⟨d, hd⟩ := Option.isSome_iff_exists.mp hsome
          rw [hd]
          obtain ⟨l, hl⟩ := ih (fun i hi => h i (List.mem_cons_of_mem j hi))
          rw [hl]
          exact ⟨_, rfl⟩
  · induction active with
    | nil => intro i hi; exact absurd hi (List.not_mem_nil i)
    | cons j rest ih =>
      intro i hi hnv hnone
      rw [nonParticipatingPass]
      rcases List.mem_cons.mp hi with rfl | hmem
      · rw [if_neg hnv, hnone]
      · by_cases hjv : j ∈ votes
        · rw [if_pos hjv]
          exact ih i hmem hnv hnone
        · rw [if_neg hjv]
          rcases hd : dutiesByValidatorIndex duties j with _ | d
          · rfl
          · rw [ih i hmem hnv hnone]
            rfl
  · intro inp p h
    simp only [processAttesterDuties]
    rw [h]
    rfl

/-- Claim C10 witness: validator 1 is active, has no vote and no duty, and
the pass crashes with the nil-pointer dereference. -/
theorem nonParticipation_requires_duty_witness :
    nonParticipatingPass [] [] [1] = .error .nilPointerDereference :=
  (nonParticipation_requires_duty [] [] [1]).2.1 1 (by decide) (by decide) rfl

/-- Claim C1: classification of a counted vote with inclusion delay d. When
the head vote is correct per the canonical-header backward search and
d = 1, the owning slot bucket's TimelyHead counter is incremented; when it
is correct but d > 1, CorrectHead is incremented and the fault is appended
to UntimelyHeadValidators; when it is incorrect, the fault is appended to
IncorrectHeadValidators, and additionally to UntimelyHeadValidators when
d > 1. -/
theorem headVote_classification (headers : Nat → Option BeaconBlockHeader)
    (fuel : Nat) (a : AttestationData) (hc tc : Bool) (d idx : Nat)
    (fault : validatorFault) (st : scanState)
    (hsearch : AttestationHeadCorrect headers fuel a = some hc)
    (hidx : idx < st.slots.length) :
    (hc = true → d = 1 →
      ((classifyVote hc tc d idx fault st).slotAt idx).TimelyHead
        = (st.slotAt idx).TimelyHead + 1)
    ∧ (hc = true → 1 < d →
      ((classifyVote hc tc d idx fault st).slotAt idx).CorrectHead
        = (st.slotAt idx).CorrectHead + 1
      ∧ (classifyVote hc tc d idx fault st).UntimelyHeadValidators
        = st.UntimelyHeadValidators ++ [fault])
    ∧ (hc = false →
      (classifyVote hc tc d idx fault st).IncorrectHeadValidators
        = st.IncorrectHeadValidators ++ [fault]
      ∧ (1 < d →
        (classifyVote hc tc d idx fault st).UntimelyHeadValidators
          = st.UntimelyHeadValidators ++ [fault])) := by
  clear hsearch
  refine ⟨?_, ?_, ?_⟩
  · rintro rfl rfl
    cases tc <;>
      simp [classifyVote, scanState.slotAt, bumpCorrectHead, bumpTimelyHead,
        bumpTimelySource, bumpCorrectTarget, bumpTimelyTarget,
        modifySlot_getD_self, modifySlot_getElem_self, modifySlot_length, hidx]
  · rintro rfl hd
    have hne : ¬ d = 1 := by omega
    constructor
    · cases tc <;>
        (simp only [classifyVote, hne, if_false, Bool.true_eq, if_true,
          bumpCorrectHead, bumpTimelyHead, bumpTimelySource, bumpCorrectTarget,
          bumpTimelyTarget, scanState.slotAt]
         split_ifs <;>
          first
            | omega
            | simp [modifySlot_getElem_self, modifySlot_getD_self,
                modifySlot_length, hidx])
    · cases tc <;>
        (simp only [classifyVote, hne, if_false, Bool.true_eq, if_true,
          bumpCorrectHead, bumpTimelyHead, bumpTimelySource, bumpCorrectTarget,
          bumpTimelyTarget]
         split_ifs <;>
          first
            | omega
            | rfl
            | simp [modifySlot_getElem_self, modifySlot_getD_self,
                modifySlot_length, hidx])
  · rintro rfl
    constructor
    · cases tc <;>
        (simp only [classifyVote, Bool.false_eq_true, if_false,
          bumpCorrectHead, bumpTimelyHead, bumpTimelySource, bumpCorrectTarget,
          bumpTimelyTarget]
         split_ifs <;>
          first
            | omega
            | rfl
            | simp [modifySlot_getElem_self, modifySlot_getD_self,
                modifySlot_length, hidx])
    · intro hd
      cases tc <;>
        (simp only [classifyVote, Bool.false_eq_true, if_false,
          bumpCorrectHead, bumpTimelyHead, bumpTimelySource, bumpCorrectTarget,
          bumpTimelyTarget]
         split_ifs <;>
          first
            | omega
            | rfl
            | simp [modifySlot_getElem_self, modifySlot_getD_self,
                modifySlot_length, hidx])

/-- Claim C1 witness: a correct head vote with delay 1 on a one-bucket
state increments TimelyHead of the owning bucket. -/
theorem headVote_classification_witness :
    ((classifyVote true true 1 0 c1fault c1st).slotAt 0).TimelyHead
      = (c1st.slotAt 0).TimelyHead + 1 :=
  (headVote_classification (fun _ => some ⟨42, true⟩) 1 ⟨5, 0, 42, 0, 42⟩
    true true 1 0 c1fault c1st (by decide) (by decide)).1 rfl rfl

theorem processDutyMatch_dup (fs incl : Nat) (hof tof : AttestationData → Bool)
    (att : Attestation) (st : scanState) (d : AttesterDuty)
    (h : d.validatorIndex ∈ st.votes) :
    processDutyMatch fs incl hof tof att st d = st := by
  unfold processDutyMatch
  split_ifs <;> rfl

theorem processDutyMatch_new (fs incl : Nat) (hof tof : AttestationData → Bool)
    (att : Attestation) (st : scanState) (d : AttesterDuty)
    (hbit : att.aggregationBits.getD d.validatorCommitteeIndex false = true)
    (hmem : d.validatorIndex ∉ st.votes) :
    (processDutyMatch fs incl hof tof att st d).trace
      = st.trace ++ [⟨d.validatorIndex, d.slot, incl, goSub64 incl d.slot⟩]
    ∧ (processDutyMatch fs incl hof tof att st d).votes
      = d.validatorIndex :: st.votes := by
  unfold processDutyMatch
  rw [if_pos hbit, if_neg hmem]
  exact ⟨by rw [classifyVote_trace], by rw [classifyVote_votes]⟩

theorem processDutyMatch_OK (duties : List AttesterDuty) (fs incl : Nat)
    (hof tof : AttestationData → Bool) (att : Attestation) (st : scanState)
    (d : AttesterDuty) (hd : d ∈ duties) (h : scanStateOK duties st) :
    scanStateOK duties (processDutyMatch fs incl hof tof att st d) := by
  by_cases hbit : att.aggregationBits.getD d.validatorCommitteeIndex false = true
  · by_cases hmem : d.validatorIndex ∈ st.votes
    · rw [processDutyMatch_dup fs incl hof tof att st d hmem]
      exact h
    · obtain ⟨htr, hvt⟩ := processDutyMatch_new fs incl hof tof att st d hbit hmem
      obtain ⟨h1, h2, h3⟩ := h
      refine ⟨?_, ?_, ?_⟩
      · rw [htr, hvt, h1]
        simp
      · rw [hvt]
        exact List.nodup_cons.mpr ⟨hmem, h2⟩
      · intro e he
        rw [htr] at he
        rcases List.mem_append.mp he with hold | hnew
        · exact h3 e hold
        · rw [List.mem_singleton] at hnew
          subst hnew
          exact ⟨⟨d, hd, rfl⟩, rfl⟩
  · unfold processDutyMatch
    rw [if_neg hbit]
    exact h

theorem foldl_processDutyMatch_OK (duties l : List AttesterDuty)
    (hl : ∀ d ∈ l, d ∈ duties) (fs incl : Nat) (hof tof : AttestationData → Bool)
    (att : Attestation) (st : scanState) (h : scanStateOK duties st) :
    scanStateOK duties (l.foldl (processDutyMatch fs incl hof tof att) st) := by
  induction l generalizing st with
  | nil => exact h
  | cons d tl ih =>
    rw [List.foldl_cons]
    exact ih (fun x hx => hl x (List.mem_cons_of_mem d hx)) _
      (processDutyMatch_OK duties fs incl hof tof att st d
        (hl d (List.mem_cons_self d tl)) h)

theorem processAttestation_OK (duties : List AttesterDuty) (fs incl : Nat)
    (hof tof : AttestationData → Bool) (st : scanState) (att : Attestation)
    (h : scanStateOK duties st) :
    scanStateOK duties (processAttestation fs incl hof tof duties st att) := by
  unfold processAttestation
  exact foldl_processDutyMatch_OK duties _
    (fun d hd => (List.mem_filter.mp hd).1) fs incl hof tof att st h

theorem processBlockAttestations_OK (duties : List AttesterDuty)
    (fs incl ac : Nat) (hof tof : AttestationData → Bool) (st : scanState)
    (atts : List Attestation) (h : scanStateOK duties st) :
    scanStateOK duties
      (processBlockAttestations fs incl ac hof tof duties st atts) := by
  induction atts generalizing st with
  | nil => exact h
  | cons att tl ih =>
    rw [processBlockAttestations]
    have h' := processAttestation_OK duties fs incl hof tof st att h
    split_ifs
    · exact h'
    · exact ih _ h'

theorem processAttesterDutiesSlot_OK (duties : List AttesterDuty)
    (blocks : Nat → Option (List Attestation)) (fs ac : Nat)
    (hof tof : AttestationData → Bool) (slot : Nat) (st : scanState)
    (h : scanStateOK duties st) :
    scanStateOK duties
      (processAttesterDutiesSlot blocks fs ac hof tof duties slot st) := by
  unfold processAttesterDutiesSlot
  rcases blocks slot with _ | atts
  · exact h
  · exact processBlockAttestations_OK duties fs slot ac hof tof st atts h

theorem scanPhase_OK (inp : AttesterInputs) :
    scanStateOK inp.duties (scanPhase inp) := by
  unfold scanPhase
  have hinit : scanStateOK inp.duties (initialScanState inp) :=
    ⟨rfl, List.nodup_nil, fun e he => absurd he (List.not_mem_nil e)⟩
  generalize initialScanState inp = st0 at hinit
  induction scanWindow inp generalizing st0 with
  | nil => exact hinit
  | cons slot tl ih =>
    rw [List.foldl_cons]
    exact ih _ (processAttesterDutiesSlot_OK inp.duties inp.blocks _ _
      inp.headOf inp.targetOf slot st0 hinit)

theorem processAttesterDuties_ok_parts (inp : AttesterInputs)
    (fin : attesterSummary) (h : processAttesterDuties inp = .ok fin) :
    fin.st = scanPhase inp
    ∧ fin.ParticipatingValidators = (scanPhase inp).votes.length := by
  simp only [processAttesterDuties] at h
  rcases hn : nonParticipatingPass inp.duties (scanPhase inp).votes
      inp.activeValidatorIndices with e | l
  · rw [hn] at h
    exact Except.noConfusion h
  · rw [hn] at h
    have h' : Except.ok (ε := GoPanic)
        { st := scanPhase inp
          NonParticipatingValidators := sortNonParticipating l
          ActiveValidators := inp.activeValidatorIndices.dedup.length
          ParticipatingValidators := (scanPhase inp).votes.length } = .ok fin := h
    rw [Except.ok.injEq] at h'
    rw [← h']
    exact ⟨rfl, rfl⟩

theorem goSub64_of_le (a b : Nat) (hle : b ≤ a) (ha : a < U64) :
    goSub64 a b = a - b := by
  unfold goSub64 U64 at *
  omega

/-- Claim C5: across one attester-duty processing run, each validator
contributes at most one counted vote (the validators of the counted-vote
trace are distinct), ParticipatingValidators equals exactly the number of
distinct validators with a recorded vote, every recorded vote belongs to a
duty validator, and at the level of one scan step a duty whose validator is
already in the votes map changes nothing (later occurrences ignored) while
a first occurrence appends exactly one counted vote. -/
theorem participating_equals_unique_voters (inp : AttesterInputs)
    (fin : attesterSummary) (h : processAttesterDuties inp = .ok fin) :
    (fin.st.trace.map recordedVote.validator).Nodup
    ∧ fin.ParticipatingValidators
        = ((fin.st.trace.map recordedVote.validator).dedup).length
    ∧ (∀ v ∈ fin.st.trace.map recordedVote.validator,
        ∃ d ∈ inp.duties, d.validatorIndex = v)
    ∧ (∀ (fs incl : Nat) (hof tof : AttestationData → Bool) (att : Attestation)
        (st : scanState) (d : AttesterDuty), d.validatorIndex ∈ st.votes →
        processDutyMatch fs incl hof tof att st d = st)
    ∧ (∀ (fs incl : Nat) (hof tof : AttestationData → Bool) (att : Attestation)
        (st : scanState) (d : AttesterDuty),
        att.aggregationBits.getD d.validatorCommitteeIndex false = true →
        d.validatorIndex ∉ st.votes →
        (processDutyMatch fs incl hof tof att st d).trace
          = st.trace ++ [⟨d.validatorIndex, d.slot, incl, goSub64 incl d.slot⟩]) := by
  obtain ⟨hst, hpart⟩ := processAttesterDuties_ok_parts inp fin h
  obtain ⟨h1, h2, h3⟩ := scanPhase_OK inp
  rw [← hst] at h1 h2 h3
  have hnd : (fin.st.trace.map recordedVote.validator).Nodup := by
    rw [h1] at h2
    exact List.nodup_reverse.mp h2
  refine ⟨hnd, ?_, ?_, ?_, ?_⟩
  · rw [hpart, ← hst, h1, hnd.dedup]
    simp
  · intro v hv
    rcases List.mem_map.mp hv with ⟨e, he, hev⟩
    obtain ⟨⟨d, hd, hdv⟩, _⟩ := h3 e he
    exact ⟨d, hd, by rw [hdv, hev]⟩
  · intro fs incl hof tof att st d hmem
    exact processDutyMatch_dup fs incl hof tof att st d hmem
  · intro fs incl hof tof att st d hbit hmem
    exact (processDutyMatch_new fs incl hof tof att st d hbit hmem).1

/-- Claim C5 witness: on the c5winp fixture (one duplicate vote of
validator 3 in a later block), the counted votes are distinct and
ParticipatingValidators is the number of distinct recorded voters. -/
theorem participating_equals_unique_voters_witness :
    processAttesterDuties c5winp = Except.ok c5fin
    ∧ (c5fin.st.trace.map recordedVote.validator).Nodup
    ∧ c5fin.ParticipatingValidators
        = ((c5fin.st.trace.map recordedVote.validator).dedup).length := by
  refine ⟨by decide, ?_, ?_⟩
  · exact (participating_equals_unique_voters c5winp c5fin (by decide)).1
  · exact (participating_equals_unique_voters c5winp c5fin (by decide)).2.1

/-- Claim C7 counterexample: an attestation for duty slot 5 included in the
block of slot 3 (including slot precedes duty slot) is counted and
recorded, not rejected: the vote enters the votes map and the trace with
the wrapped uint64 delay 2^64 - 2, and the recorded int InclusionDistance
of the fault entry is the negative value -2. -/
theorem negative_delay_vote_recorded :
    processAttesterDuties c7inp = Except.ok c7fin
    ∧ c7fin.st.trace = [⟨7, 5, 3, 18446744073709551614⟩]
    ∧ c7fin.st.votes = [7]
    ∧ c7fin.st.UntimelySourceValidators.map validatorFault.InclusionDistance
        = [-2] := by
  decide

/-- Claim C7 (amended: the delay of a counted vote is the uint64 value
(includingSlot - dutySlot) mod 2^64; when the including slot does not
precede the duty slot this equals the plain difference includingSlot -
dutySlot, hence is nonnegative; a vote whose including slot precedes its
duty slot is still counted, with the wrapped delay). -/
theorem inclusion_delay_of_counted_vote (inp : AttesterInputs)
    (fin : attesterSummary) (h : processAttesterDuties inp = .ok fin) :
    ∀ e ∈ fin.st.trace,
      e.inclusionDelay = goSub64 e.includingSlot e.dutySlot
      ∧ (e.dutySlot ≤ e.includingSlot → e.includingSlot < U64 →
          e.inclusionDelay = e.includingSlot - e.dutySlot) := by
  obtain ⟨hst, _⟩ := processAttesterDuties_ok_parts inp fin h
  obtain ⟨_, _, h3⟩ := scanPhase_OK inp
  rw [← hst] at h3
  intro e he
  obtain ⟨_, hdelay⟩ := h3 e he
  refine ⟨hdelay, ?_⟩
  intro hle hlt
  rw [hdelay, goSub64_of_le e.includingSlot e.dutySlot hle hlt]

/-- Claim C7 witness: the amended delay relation at a counted vote with
duty slot 5 included at slot 6. -/
theorem inclusion_delay_of_counted_vote_witness :
    processAttesterDuties c7winp = Except.ok c7wfin
    ∧ (⟨7, 5, 6, 1⟩ : recordedVote).inclusionDelay = 6 - 5 := by
  refine ⟨by decide, ?_⟩
  exact ((inclusion_delay_of_counted_vote c7winp c7wfin (by decide))
    ⟨7, 5, 6, 1⟩ (by decide)).2 (by decide) (by decide)

end Strac
